import Mathlib

/-!
Verification of the Gannet reporting core against its specification.

Shallow embedding of the algorithmic parts of the repository:
  * `src/fx_rates.py`        — historical FX resolution with cache / fallback
  * `src/ap_ar/AP&AR.py`     — AP/AR reconciliation (settled, direct sale,
                               4ZP wallet, anomaly flags)
  * `src/weekly/data_sheet.py` and `src/validators.py` — canonical rows and
                               data-quality findings
  * `src/bookings/booking_window.py` — sale-week x departure-month matrix
  * `config.py`              — fallback FX table and direct-sale code sets

Monetary amounts and rates are embedded as rationals (`ℚ`); Python's
`round(x, n)` is embedded as rounding of `x * 10^n` to the nearest integer.
Python dicts keyed by folio / currency are embedded as association lists
looked up from the front (later inserts shadow earlier ones, matching dict
overwrite semantics).
-/

/-- Association-list lookup (first match wins), mirroring Python dict access. -/
def alookup {α β : Type} [DecidableEq α] : List (α × β) → α → Option β
  | [], _ => none
  | (k, v) :: rest, key => if key = k then some v else alookup rest key

/-- Embedding of Python `round(x, n)` on rationals: round `x * 10^n` to the
nearest integer, then scale back. -/
def roundTo (n : ℕ) (x : ℚ) : ℚ := (round (x * 10 ^ n) : ℤ) / 10 ^ n

/-- `round(x, 2)` — monetary rounding. -/
def round2 (x : ℚ) : ℚ := roundTo 2 x

/-- `round(x, 6)` — rate / ratio rounding. -/
def round6 (x : ℚ) : ℚ := roundTo 6 x

/-- Embedding of Python `str.strip()` (and pandas `.str.strip()`): drop
leading and trailing whitespace, implemented by structural recursion over
the character list so that concrete instances evaluate. -/
def pyStrip (s : String) : String :=
  String.mk
    (((s.data.dropWhile Char.isWhitespace).reverse.dropWhile Char.isWhitespace).reverse)

-- ── Calendar (embedding of Python `datetime.date` arithmetic) ──────────────

/-- Gregorian leap-year rule. -/
def isLeap (y : ℤ) : Prop := y % 4 = 0 ∧ (y % 100 ≠ 0 ∨ y % 400 = 0)

instance (y : ℤ) : Decidable (isLeap y) := by unfold isLeap; infer_instance

/-- Number of days in a month (`calendar.monthrange(year, month)[1]`). -/
def daysInMonth (y : ℤ) (m : ℕ) : ℕ :=
  if m = 2 then (if isLeap y then 29 else 28)
  else if m = 4 ∨ m = 6 ∨ m = 9 ∨ m = 11 then 30
  else 31

/-- A calendar date (`datetime.date`). -/
structure Date where
  year : ℤ
  month : ℕ
  day : ℕ
deriving DecidableEq, Repr

/-- A date is valid when its month and day lie in calendar range. -/
def Date.Valid (d : Date) : Prop :=
  1 ≤ d.month ∧ d.month ≤ 12 ∧ 1 ≤ d.day ∧ d.day ≤ daysInMonth d.year d.month

instance (d : Date) : Decidable d.Valid := by unfold Date.Valid; infer_instance

/-- The previous calendar day (`d - timedelta(days=1)`). -/
def Date.pred (d : Date) : Date :=
  if 1 < d.day then ⟨d.year, d.month, d.day - 1⟩
  else if 1 < d.month then ⟨d.year, d.month - 1, daysInMonth d.year (d.month - 1)⟩
  else ⟨d.year - 1, 12, 31⟩

/-- `d - timedelta(days=i)`. -/
def subDays (d : Date) (i : ℕ) : Date := Date.pred^[i] d

/-- Cumulative days before month `m` in a non-leap year. -/
def cumDays (m : ℕ) : ℕ :=
  [0, 0, 31, 59, 90, 120, 151, 181, 212, 243, 273, 304, 334].getD m 0

/-- Day-of-year of a date (1-based). -/
def dayOfYear (d : Date) : ℕ :=
  cumDays d.month + (if isLeap d.year ∧ 3 ≤ d.month then 1 else 0) + d.day

/-- Rata-die day number (0001-01-01 has number 1). -/
def rataDie (d : Date) : ℤ :=
  365 * (d.year - 1) + (d.year - 1) / 4 - (d.year - 1) / 100 + (d.year - 1) / 400
    + (dayOfYear d : ℤ)

/-- Weekday with Monday = 0 (Python `date.weekday()`). -/
def weekdayMon0 (d : Date) : ℕ := ((rataDie d - 1) % 7).toNat

/-- Embedding of Python `int(d.strftime('%W'))`: week of the year with Monday
as the first day of the week; days before the first Monday are week 0. -/
def strftimeW (d : Date) : ℕ := (dayOfYear d + 6 - weekdayMon0 d) / 7

-- ── config.py ─────────────────────────────────────────────────────────────

/-- One row of an FX table: value of 1 unit of the currency in EUR and USD. -/
structure EurUsd where
  eur : ℚ
  usd : ℚ
deriving DecidableEq, Repr

/-- An FX rate table: currency code → (EUR, USD) rates. -/
def FxTable := List (String × EurUsd)

instance : DecidableEq FxTable := by unfold FxTable; infer_instance

/-- `config.FALLBACK_FX`: the static fallback rate table. -/
def FALLBACK_FX : FxTable :=
  [("EUR", ⟨1, 1.16⟩),
   ("USD", ⟨0.86, 1⟩),
   ("GBP", ⟨1.15, 1.34⟩),
   ("GPB", ⟨1.15, 1.34⟩),
   ("CHF", ⟨1.07, 1.25⟩),
   ("JPY", ⟨0.0055, 0.0064⟩),
   ("MXN", ⟨0.046, 0.054⟩)]

/-- `VENTA_DIRECTA` from `AP&AR.py`: per-entity direct-sale payment codes. -/
def VENTA_DIRECTA : String → List String
  | "SL" => ["00B"]
  | "LLC" => ["4E2", "E04"]
  | _ => []

-- ── fx_rates.py ───────────────────────────────────────────────────────────

/-- The seven currency codes every parsed table carries
(`["EUR", "USD", "GBP", "GPB", "CHF", "JPY", "MXN"]` in `_parse_single_day`). -/
def fxCurrencies : List String := ["EUR", "USD", "GBP", "GPB", "CHF", "JPY", "MXN"]

/-- `_parse_single_day(rates_from_eur)`: convert one day of EUR-based service
rates (`1 EUR = X currency`) to the internal per-currency table. -/
def parseSingleDay (ratesFromEur : List (String × ℚ)) : FxTable :=
  let usdPerEur := (alookup ratesFromEur "USD").getD 1.16
  fxCurrencies.map (fun currency =>
    let lookupName := if currency = "GPB" then "GBP" else currency
    if lookupName = "EUR" then
      (currency, ⟨1, round6 usdPerEur⟩)
    else
      match alookup ratesFromEur lookupName with
      | some rateFromEur =>
          let toEur := 1 / rateFromEur
          let toUsd := toEur * usdPerEur
          (currency, ⟨round6 toEur, round6 toUsd⟩)
      | none => (currency, (alookup FALLBACK_FX currency).getD ⟨1, 1⟩))

/-- Result of one month fetch from the rate service: `none` models any
network or parsing error (the exception caught in `_download_month`),
`some days` models a successful response of per-day rate maps. -/
def FxService := ℤ → ℕ → Option (List (Date × FxTable))

/-- The module-level mutable state of `fx_rates.py`: the per-day cache
`_fx_cache` and the attempted-months set `_downloaded_months`. -/
structure FxState where
  cache : List (Date × FxTable)
  downloaded : List (ℤ × ℕ)

/-- `_download_month(year, month)`: on success insert every returned day into
the cache; on failure insert nothing; in both cases mark the month as
attempted. The exception is caught inside, so this always returns a state. -/
def downloadMonth (svc : FxService) (y : ℤ) (m : ℕ) (s : FxState) : FxState :=
  match svc y m with
  | some days => { cache := days ++ s.cache, downloaded := (y, m) :: s.downloaded }
  | none => { s with downloaded := (y, m) :: s.downloaded }

/-- The loop body of `_find_nearest_rate`: at each step look up the current
day; on a miss, download its month if not yet attempted and re-check; then
step one day back.  `fuel` is the remaining number of loop iterations
(`range(8)` in the source). -/
def findNearestAux (svc : FxService) : ℕ → Date → FxState → FxTable × FxState
  | 0, _, s => (FALLBACK_FX, s)
  | n + 1, d, s =>
    match alookup s.cache d with
    | some t => (t, s)
    | none =>
      if (d.year, d.month) ∈ s.downloaded then
        findNearestAux svc n d.pred s
      else
        let s' := downloadMonth svc d.year d.month s
        match alookup s'.cache d with
        | some t => (t, s')
        | none => findNearestAux svc n d.pred s'

/-- `_find_nearest_rate(target_date)`: walk back up to 7 days (8 inspected
days in total); if nothing is found, return the static fallback table. -/
def findNearestRate (svc : FxService) (d : Date) (s : FxState) : FxTable × FxState :=
  findNearestAux svc 8 d s

/-- `get_historical_fx(target_date)`: `None` yields a copy of the fallback
table; otherwise ensure the month is attempted, then resolve with back-off. -/
def getHistoricalFx (svc : FxService) (targetDate : Option Date) (s : FxState) :
    FxTable × FxState :=
  match targetDate with
  | none => (FALLBACK_FX, s)
  | some d =>
    let s1 := if (d.year, d.month) ∈ s.downloaded then s
              else downloadMonth svc d.year d.month s
    findNearestRate svc d s1

-- ── ap_ar/AP&AR.py ────────────────────────────────────────────────────────

/-- One row of a payment-ledger CSV (`pago_proveedor` / `pago_cliente`).
`fecha_aplicacion` is used on the AP side, `fecha_proceso` on the AR side;
the unapplied sentinel in either is the string `0000-00-00`. -/
structure PaymentRow where
  reserva : ℤ
  monto : ℚ
  monto_pagado : ℚ
  forma_pago : String
  fecha_aplicacion : String
  fecha_proceso : String
  cancelado : ℤ
  moneda : String
deriving DecidableEq, Repr

/-- The filter shared by the applied-payment pivots:
`cancelado == 0` and the date column, stripped, differs from `0000-00-00`. -/
def isApplied (dateCol : PaymentRow → String) (e : PaymentRow) : Bool :=
  e.cancelado = 0 ∧ pyStrip (dateCol e) ≠ "0000-00-00"

/-- The folios (dict keys) of a pandas `groupby("reserva")` over a row list:
each distinct `reserva` value, once. -/
def groupKeys (rows : List PaymentRow) : List ℤ := (rows.map (·.reserva)).dedup

/-- Sum of a column over the rows of one group. -/
def groupSum (rows : List PaymentRow) (montoCol : PaymentRow → ℚ) (folio : ℤ) : ℚ :=
  ((rows.filter (fun e => e.reserva = folio)).map montoCol).sum

/-- `_build_ya_pagado(payment_df, date_col)`: pivot of ALL applied payments
(no direct-sale exclusion).  Filters: `cancelado=0`,
`date_col != '0000-00-00'`; returns `{reserva: sum(monto)}`. -/
def buildYaPagado (df : List PaymentRow) (dateCol : PaymentRow → String) :
    List (ℤ × ℚ) :=
  let applied := df.filter (isApplied dateCol)
  (groupKeys applied).map (fun k => (k, groupSum applied (·.monto) k))

/-- `_build_venta_directa(payment_df, vd_codes, date_col, monto_col)`:
pivot of ONLY applied direct-sale payments.  Filters: `cancelado=0`,
`date_col != '0000-00-00'`, `forma_pago ∈ vd_codes`. -/
def buildVentaDirecta (df : List PaymentRow) (vdCodes : List String)
    (dateCol : PaymentRow → String) (montoCol : PaymentRow → ℚ) :
    List (ℤ × ℚ) :=
  let filtered := df.filter
    (fun e => isApplied dateCol e ∧ e.forma_pago ∈ vdCodes)
  (groupKeys filtered).map (fun k => (k, groupSum filtered montoCol k))

/-- `_build_4zp_records(pago_cli_df)`: 4ZP/wallet records of `pago_cliente`
(LLC only).  Filter: `cancelado=0`, `forma_pago='4ZP'` — note: no date
filter.  Returns `(reserva, monto, moneda)` triples. -/
def build4zpRecords (pagoCliDf : List PaymentRow) : List (ℤ × ℚ × String) :=
  let filtered := pagoCliDf.filter
    (fun e => e.cancelado = 0 ∧ e.forma_pago = "4ZP")
  filtered.map (fun e => (e.reserva, e.monto, pyStrip e.moneda))

/-- Per-folio info from `_build_reserva_lookup` (the fields the
reconciliation claims use). -/
structure ReservaInfo where
  moneda : String
  total_proveedor : ℚ
  total_cliente : ℚ
deriving DecidableEq, Repr

/-- `_get_fx_usd(moneda, fx)`: the currency's USD rate from the run's FX
table, falling back to `FALLBACK_FX` (default 1) when absent or falsy
(Python `if rate:` is false for `None` and for `0.0`). -/
def getFxUsd (moneda : String) (fx : FxTable) : ℚ :=
  let fallback := ((alookup FALLBACK_FX moneda).map (·.usd)).getD 1
  match alookup fx moneda with
  | some r => if r.usd ≠ 0 then r.usd else fallback
  | none => fallback

/-- One row of the Flags sheet data. -/
structure FlagRec where
  folio : ℤ
  moneda : String
  total : ℚ
  pagado : ℚ
  restante : ℚ
  restante_usd : ℚ
deriving DecidableEq, Repr

/-- Stable insertion into a list sorted ascending by `restante_usd`
(embedding of Python's stable `list.sort(key=...)`). -/
def insFlag (x : FlagRec) : List FlagRec → List FlagRec
  | [] => [x]
  | y :: ys => if y.restante_usd ≤ x.restante_usd then y :: insFlag x ys
               else x :: y :: ys

/-- Stable sort of flag records ascending by `restante_usd`. -/
def sortFlags (l : List FlagRec) : List FlagRec := l.foldr insFlag []

/-- The AP half of `_build_flags_data`: for each folio of the AP applied
pivot, `restante = total_proveedor - pagado`; flag when `restante` in USD
(rounded to 2 decimals) is negative. -/
def buildApFlags (apYaPagado : List (ℤ × ℚ))
    (reservaLookup : List (ℤ × ReservaInfo)) (fx : FxTable) : List FlagRec :=
  sortFlags <| apYaPagado.filterMap (fun kv =>
    let folio := kv.1
    let pagado := kv.2
    let info := alookup reservaLookup folio
    let total := ((info.map (·.total_proveedor)).getD 0)
    let moneda := ((info.map (·.moneda)).getD "EUR")
    let restante := total - pagado
    let restanteUsd := round2 (restante * getFxUsd moneda fx)
    if restanteUsd < 0 then
      some ⟨folio, moneda, round2 total, round2 pagado, round2 restante, restanteUsd⟩
    else none)

/-- The 4ZP-by-folio lookup built at the top of `_build_flags_data`:
sum of wallet `monto` per reserva over the 4ZP records. -/
def zpByFolio (zpRecords : List (ℤ × ℚ × String)) (folio : ℤ) : ℚ :=
  ((zpRecords.filter (fun t => t.1 = folio)).map (fun t => t.2.1)).sum

/-- The AR half of `_build_flags_data`: for each folio of the AR applied
pivot, `restante = total_cliente - cobrado - zp_monto`; flag when
`restante` in USD (rounded to 2 decimals) is negative. -/
def buildArFlags (arYaPagado : List (ℤ × ℚ))
    (reservaLookup : List (ℤ × ReservaInfo)) (fx : FxTable)
    (zpRecords : List (ℤ × ℚ × String)) : List FlagRec :=
  sortFlags <| arYaPagado.filterMap (fun kv =>
    let folio := kv.1
    let cobrado := kv.2
    let info := alookup reservaLookup folio
    let total := ((info.map (·.total_cliente)).getD 0)
    let moneda := ((info.map (·.moneda)).getD "EUR")
    let restante := total - cobrado - zpByFolio zpRecords folio
    let restanteUsd := round2 (restante * getFxUsd moneda fx)
    if restanteUsd < 0 then
      some ⟨folio, moneda, round2 total, round2 cobrado, round2 restante, restanteUsd⟩
    else none)

/-- The AR remainder of a folio as `_build_flags_data` computes it from a
client-payment ledger: `total_cliente` minus the folio's applied pivot value
(0 when the folio has no applied payments) minus its 4ZP wallet sum. -/
def arRestante (totalCliente : ℚ) (ledger : List PaymentRow) (folio : ℤ) : ℚ :=
  totalCliente - ((alookup (buildYaPagado ledger (·.fecha_proceso)) folio).getD 0)
    - zpByFolio (build4zpRecords ledger) folio

-- ── weekly/data_sheet.py and validators.py ────────────────────────────────

/-- One merged reservation row as seen by `build_data_rows` and
`detect_errors` (reserva joined left with rentabilidad, missing
rentabilidad filled with 0; the rentabilidad table is folio-keyed).
Date columns are kept as optional raw strings: `none` models NaN. -/
structure ReservaRow where
  folio : ℤ
  vendedor : String
  fecha : Option String
  fecha_inicio : Option String
  fecha_fin : Option String
  moneda : String
  total_cliente : ℚ
  cerrada : ℤ
  usuarios_invitados : ℤ
deriving DecidableEq, Repr

/-- Rentabilidad of a folio after the left merge + `fillna(0)`. -/
def rentOf (rentTable : List (ℤ × ℚ)) (folio : ℤ) : ℚ :=
  (alookup rentTable folio).getD 0

/-- The monetary / ratio columns of one DATA-sheet row (`build_data_rows`).
The date-derived columns (D–I, R–X) only reformat parsed dates and are not
needed by any claim; the embedded fragment carries the columns the claims
read: A (entity), B (folio), J/K (client total and currency), L/M (EUR/USD
conversions), N/O/P (profitability and conversions), Q (profitability
ratio, `round(rent / total, 6)` with a 0 guard for `total == 0`). -/
structure DataRow where
  A : String
  B : ℤ
  J : ℚ
  K : String
  L : ℚ
  M : ℚ
  N : ℚ
  O : ℚ
  P : ℚ
  Q : ℚ
deriving DecidableEq, Repr

/-- The per-row computation of `build_data_rows`. -/
def buildRow (rentTable : List (ℤ × ℚ)) (fx : FxTable) (company : String)
    (r : ReservaRow) : DataRow :=
  let moneda := pyStrip r.moneda
  let totalCliente := r.total_cliente
  let rentabilidad := rentOf rentTable r.folio
  let fxRates := ((alookup fx moneda).orElse
    (fun _ => alookup fx "EUR")).getD ⟨1, 1.16⟩
  let fxEur := fxRates.eur
  let fxUsd := fxRates.usd
  let pctRent := if totalCliente ≠ 0 then rentabilidad / totalCliente else 0
  { A := company
    B := r.folio
    J := totalCliente
    K := moneda
    L := round2 (totalCliente * fxEur)
    M := round2 (totalCliente * fxUsd)
    N := rentabilidad
    O := round2 (rentabilidad * fxEur)
    P := round2 (rentabilidad * fxUsd)
    Q := round6 pctRent }

/-- `build_data_rows(reserva_df, rentabilidad_df, fx, company)`. -/
def buildDataRows (reservaDf : List ReservaRow) (rentTable : List (ℤ × ℚ))
    (fx : FxTable) (company : String) : List DataRow :=
  reservaDf.map (buildRow rentTable fx company)

/-- The kinds of data-quality findings `detect_errors` emits, with the
quantities interpolated into each Python message carried as payload. -/
inductive ErrKind where
  | totalNegativo (total : ℚ)
  | rentNegativa (rent : ℚ)
  | rentMuyAlta (rent total : ℚ)
  | totalCeroConRent (rent : ℚ)
  | monedaDesconocida (moneda : String)
  | sinFechaInicio
  | sinFechaFin
deriving DecidableEq, Repr

/-- One finding record (`{Folio, Error, Vendedor, Fecha}`). -/
structure ErrRec where
  folio : ℤ
  error : ErrKind
  vendedor : String
  fecha : Option String
deriving DecidableEq, Repr

/-- The currency whitelist checked by `detect_errors`. -/
def knownMonedas : List String := ["EUR", "USD", "GBP", "GPB", "CHF", "MXN", "JPY"]

/-- The findings one merged row contributes, in source order. -/
def rowErrors (rentTable : List (ℤ × ℚ)) (r : ReservaRow) : List ErrRec :=
  let total := r.total_cliente
  let rent := rentOf rentTable r.folio
  let moneda := pyStrip r.moneda
  let vendedor := pyStrip r.vendedor
  let mk := fun (kind : ErrKind) =>
    ErrRec.mk r.folio kind vendedor r.fecha
  (if total < 0 then [mk (.totalNegativo total)] else []) ++
  (if rent < 0 then [mk (.rentNegativa rent)] else []) ++
  (if total > 0 ∧ rent / total > 1 / 2 then [mk (.rentMuyAlta rent total)] else []) ++
  (if total = 0 ∧ rent ≠ 0 then [mk (.totalCeroConRent rent)] else []) ++
  (if moneda ∉ knownMonedas then [mk (.monedaDesconocida moneda)] else []) ++
  (if r.fecha_inicio = none then [mk .sinFechaInicio] else []) ++
  (if r.fecha_fin = none then [mk .sinFechaFin] else [])

/-- `detect_errors(reserva_df, rentabilidad_df)`. -/
def detectErrors (reservaDf : List ReservaRow) (rentTable : List (ℤ × ℚ)) :
    List ErrRec :=
  reservaDf.flatMap (rowErrors rentTable)

-- ── bookings/booking_window.py ────────────────────────────────────────────

/-- The fields of a DATA-sheet row dict that `build_booking_matrix` reads:
`D` (sale date), `E` (departure date), `M` (Total Venta USD).  `none`
models a row whose date is missing (falsy in `if not fecha`). -/
structure BWRow where
  fecha : Option Date
  fecha_inicio : Option Date
  totalUsd : ℚ
deriving DecidableEq, Repr

/-- The booking matrix: dict week → dict monthKey → USD total, embedded as
a nested association list (matching the Python dict-of-dicts, including
outer keys holding an empty inner dict). -/
def BWMatrix := List (ℕ × List (ℕ × ℚ))

/-- Functional update of a dict entry (`d[k] = v` overwrite semantics:
replace the first binding in place, else append). -/
def dictSet {α β : Type} [DecidableEq α] (k : α) (v : β) :
    List (α × β) → List (α × β)
  | [] => [(k, v)]
  | (k', v') :: rest =>
    if k = k' then (k, v) :: rest else (k', v') :: dictSet k v rest

/-- `matrix[week][mk] = matrix[week].get(mk, 0) + total`. -/
def bwAdd (m : BWMatrix) (week mk : ℕ) (total : ℚ) : BWMatrix :=
  let inner := (alookup m week).getD []
  let old := (alookup inner mk).getD 0
  dictSet week (dictSet mk (old + total) inner) m

/-- One iteration of the `build_booking_matrix` loop.  Rows lacking either
date are skipped; a row with both dates first materialises
`matrix[sale_week]` (possibly as an empty dict), then adds its USD total
under the departure-month key only when the departure year is 2026
(key `month`) or 2027 (key `month + 13`). -/
def bwStep (m : BWMatrix) (r : BWRow) : BWMatrix :=
  match r.fecha, r.fecha_inicio with
  | some fecha, some fechaInicio =>
    let saleWeek := strftimeW fecha + 1
    let depYear := fechaInicio.year
    let depMonth := fechaInicio.month
    let m1 := if alookup m saleWeek = none then dictSet saleWeek [] m else m
    if depYear = 2026 then bwAdd m1 saleWeek depMonth r.totalUsd
    else if depYear = 2027 then bwAdd m1 saleWeek (depMonth + 13) r.totalUsd
    else m1
  | _, _ => m

/-- `build_booking_matrix(data_rows)`. -/
def buildBookingMatrix (dataRows : List BWRow) : BWMatrix :=
  dataRows.foldl bwStep []

/-- The value stored in the matrix under a (week, monthKey) pair. -/
def pairVal (m : BWMatrix) (week mk : ℕ) : Option ℚ :=
  (alookup m week).bind (fun inner => alookup inner mk)

-- ── Spec-side definitions (for refinement comparison) ─────────────────────

/-- The settled total as the spec words it: sum of the folio's
payment-ledger amounts whose cancellation flag is 0 and whose
application/process date differs from the sentinel, with no
payment-method condition. -/
def specSettledSum (df : List PaymentRow) (dateCol : PaymentRow → String)
    (folio : ℤ) : ℚ :=
  ((df.filter (fun e =>
    e.cancelado = 0 ∧ pyStrip (dateCol e) ≠ "0000-00-00" ∧ e.reserva = folio)).map
      (·.monto)).sum

/-- The direct-sale bucket as the spec words it: sum of applied,
non-cancelled payments of the folio whose method code is in the entity's
direct-sale code set. -/
def specDirectSaleSum (df : List PaymentRow) (codes : List String)
    (dateCol : PaymentRow → String) (montoCol : PaymentRow → ℚ)
    (folio : ℤ) : ℚ :=
  ((df.filter (fun e =>
    e.cancelado = 0 ∧ pyStrip (dateCol e) ≠ "0000-00-00" ∧
      e.forma_pago ∈ codes ∧ e.reserva = folio)).map montoCol).sum

/-- A booking row that actually contributes a matrix value: both dates
present and departure year one of the two tracked fiscal years. -/
def bwKept (r : BWRow) : Bool :=
  match r.fecha, r.fecha_inicio with
  | some _, some fi => fi.year = 2026 ∨ fi.year = 2027
  | _, _ => false

-- ── Concrete instances used by the scenario claims ────────────────────────

/-- An FX table carrying USD→USD = 1 and EUR→USD = 1.16. -/
def fxRun : FxTable := [("EUR", ⟨1, 1.16⟩), ("USD", ⟨0.86, 1⟩)]

/-- Client-payment ledger of the LLC scenario: folio 5001 with two applied,
non-cancelled entries of 400 and 300 USD and one non-cancelled 4ZP wallet
entry of 200 USD (unapplied process date). -/
def ledgerC1 : List PaymentRow :=
  [⟨5001, 400, 0, "00X", "", "2026-01-10", 0, "USD"⟩,
   ⟨5001, 300, 0, "00X", "", "2026-01-12", 0, "USD"⟩,
   ⟨5001, 200, 0, "4ZP", "", "0000-00-00", 0, "USD"⟩]

/-- Reserva lookup of the LLC scenario: folio 5001, total_cliente 1000 USD. -/
def lookupC1 : List (ℤ × ReservaInfo) := [(5001, ⟨"USD", 0, 1000⟩)]

/-- Supplier-payment ledger of the AP scenario: folio 7001 with applied,
non-cancelled supplier payments of 900 and 300 EUR. -/
def ledgerC7 : List PaymentRow :=
  [⟨7001, 900, 0, "TRF", "2026-02-01", "", 0, "EUR"⟩,
   ⟨7001, 300, 0, "TRF", "2026-02-05", "", 0, "EUR"⟩]

/-- Reserva lookup of the AP scenario: folio 7001 owed 1000 EUR. -/
def lookupC7 : List (ℤ × ReservaInfo) := [(7001, ⟨"EUR", 1000, 0⟩)]

/-- A one-day service response missing every currency except USD. -/
def respMissingChf : List (String × ℚ) := [("USD", 1.16)]

/-- A one-day service response carrying USD and GBP. -/
def respUsdGbp : List (String × ℚ) := [("USD", 1.16), ("GBP", 0.87)]

/-- A booking row sold on 2024-12-30 (a Monday of a year that starts on a
Monday, so `strftime('%W')` is 53) departing May 2026. -/
def rowWeek54 : BWRow := ⟨some ⟨2024, 12, 30⟩, some ⟨2026, 5, 1⟩, 100⟩

/-- A service that fails every month fetch. -/
def svcDown : FxService := fun _ _ => none

/-- The initial module state: empty cache, no month attempted. -/
def emptyFxState : FxState := ⟨[], []⟩

/-- A merged reservation row with client total 0 (and some rentabilidad
recorded under its folio in `rentZeroTotal`). -/
def rowZeroTotal : ReservaRow :=
  ⟨3001, "ana", some "2026-03-02", some "2026-04-01", some "2026-04-08",
   "EUR", 0, 0, 2⟩

/-- Rentabilidad table giving folio 3001 a non-zero profitability. -/
def rentZeroTotal : List (ℤ × ℚ) := [(3001, 150)]

/-- A non-cancelled 4ZP client payment with a real process date. -/
def zpApplied : PaymentRow := ⟨5001, 50, 0, "4ZP", "", "2026-01-20", 0, "USD"⟩

/-- A non-cancelled 4ZP client payment with the unapplied sentinel date. -/
def zpUnapplied : PaymentRow := ⟨5001, 80, 0, "4ZP", "", "0000-00-00", 0, "USD"⟩

/-- The range every (week, monthKey) pair of the booking matrix satisfies
(amended claim: the sale-week key can reach 54). -/
def bwKeyBounds (w mk : ℕ) : Prop :=
  1 ≤ w ∧ w ≤ 54 ∧ ((1 ≤ mk ∧ mk ≤ 12) ∨ (14 ≤ mk ∧ mk ≤ 25))

/-- The per-currency entry `_parse_single_day` stores, factored out of the
map for reasoning: EUR is pinned to (1, round6 u); a currency whose
alias-resolved code is in the response gets the rounded inverted rates;
anything else gets its static fallback entry. -/
def parseEntry (ratesFromEur : List (String × ℚ)) (currency : String) : EurUsd :=
  let usdPerEur := (alookup ratesFromEur "USD").getD 1.16
  let lookupName := if currency = "GPB" then "GBP" else currency
  if lookupName = "EUR" then ⟨1, round6 usdPerEur⟩
  else
    match alookup ratesFromEur lookupName with
    | some rateFromEur => ⟨round6 (1 / rateFromEur), round6 (1 / rateFromEur * usdPerEur)⟩
    | none => (alookup FALLBACK_FX currency).getD ⟨1, 1⟩

-- ── Helper lemmas ─────────────────────────────────────────────────────────

theorem alookup_map_key {α β : Type} [DecidableEq α] (l : List α) (f : α → β)
    (x : α) :
    alookup (l.map (fun k => (k, f k))) x = if x ∈ l then some (f x) else none := by
  induction l with
  | nil => simp [alookup]
  | cons a as ih =>
    simp only [List.map_cons, alookup, List.mem_cons]
    by_cases hx : x = a
    · subst hx; simp
    · simp [hx, ih]

theorem groupSum_eq_zero (rows : List PaymentRow) (montoCol : PaymentRow → ℚ)
    (folio : ℤ) (h : folio ∉ rows.map (·.reserva)) :
    groupSum rows montoCol folio = 0 := by
  unfold groupSum
  have hnil : rows.filter (fun e => e.reserva = folio) = [] := by
    rw [List.filter_eq_nil_iff]
    intro e he
    simp only [decide_eq_true_eq]
    exact fun hf => h (List.mem_map.mpr ⟨e, he, by simp [hf]⟩)
  rw [hnil]
  rfl

theorem pivot_getD (df : List PaymentRow) (p : PaymentRow → Bool)
    (montoCol : PaymentRow → ℚ) (folio : ℤ) :
    (alookup ((groupKeys (df.filter p)).map
      (fun k => (k, groupSum (df.filter p) montoCol k))) folio).getD 0
    = (((df.filter p).filter (fun e => e.reserva = folio)).map montoCol).sum := by
  rw [alookup_map_key]
  by_cases hmem : folio ∈ groupKeys (df.filter p)
  · rw [if_pos hmem]
    rfl
  · rw [if_neg hmem]
    have h0 : groupSum (df.filter p) montoCol folio = 0 := by
      apply groupSum_eq_zero
      intro hin
      exact hmem (List.mem_dedup.mpr hin)
    simpa [groupSum] using h0.symm

theorem yaPagado_getD (df : List PaymentRow) (dateCol : PaymentRow → String)
    (folio : ℤ) :
    (alookup (buildYaPagado df dateCol) folio).getD 0
      = specSettledSum df dateCol folio := by
  unfold buildYaPagado
  rw [pivot_getD]
  unfold specSettledSum
  congr 1
  rw [List.filter_filter]
  congr 1
  apply List.filter_congr
  intro e _
  by_cases h1 : e.cancelado = 0 <;>
    by_cases h2 : pyStrip (dateCol e) = "0000-00-00" <;>
      by_cases h3 : e.reserva = folio <;>
        simp [isApplied, h1, h2, h3]

theorem ventaDirecta_getD (df : List PaymentRow) (codes : List String)
    (dateCol : PaymentRow → String) (montoCol : PaymentRow → ℚ) (folio : ℤ) :
    (alookup (buildVentaDirecta df codes dateCol montoCol) folio).getD 0
      = specDirectSaleSum df codes dateCol montoCol folio := by
  unfold buildVentaDirecta
  rw [pivot_getD]
  unfold specDirectSaleSum
  congr 1
  rw [List.filter_filter]
  congr 1
  apply List.filter_congr
  intro e _
  by_cases h1 : e.cancelado = 0 <;>
    by_cases h2 : pyStrip (dateCol e) ≠ "0000-00-00" <;>
      by_cases h3 : e.forma_pago ∈ codes <;>
        by_cases h4 : e.reserva = folio <;>
          simp [isApplied, h1, h2, h3, h4]

theorem downloadMonth_cache_of_fail (svc : FxService) (y : ℤ) (m : ℕ)
    (s : FxState) (h : svc y m = none) :
    (downloadMonth svc y m s).cache = s.cache := by
  unfold downloadMonth
  rw [h]

theorem findNearestAux_fallback (svc : FxService) :
    ∀ (fuel : ℕ) (d : Date) (s : FxState),
      (∀ i, i < fuel → alookup s.cache (Date.pred^[i] d) = none) →
      (∀ i, i < fuel → svc (Date.pred^[i] d).year (Date.pred^[i] d).month = none) →
      (findNearestAux svc fuel d s).1 = FALLBACK_FX := by
  intro fuel
  induction fuel with
  | zero => intro d s _ _; rfl
  | succ n ih =>
    intro d s hc hs
    have h0 : alookup s.cache d = none := by
      simpa using hc 0 (Nat.succ_pos n)
    have hsvc0 : svc d.year d.month = none := by
      simpa using hs 0 (Nat.succ_pos n)
    have hcache : (downloadMonth svc d.year d.month s).cache = s.cache :=
      downloadMonth_cache_of_fail svc d.year d.month s hsvc0
    have hc' : ∀ i, i < n → alookup s.cache (Date.pred^[i] d.pred) = none := by
      intro i hi
      have := hc (i + 1) (Nat.succ_lt_succ hi)
      rwa [Function.iterate_succ_apply] at this
    have hs' : ∀ i, i < n →
        svc (Date.pred^[i] d.pred).year (Date.pred^[i] d.pred).month = none := by
      intro i hi
      have := hs (i + 1) (Nat.succ_lt_succ hi)
      rwa [Function.iterate_succ_apply] at this
    by_cases hdl : (d.year, d.month) ∈ s.downloaded
    · have heq : findNearestAux svc (n + 1) d s = findNearestAux svc n d.pred s := by
        simp only [findNearestAux, h0, if_pos hdl]
      rw [heq]
      exact ih d.pred s hc' hs'
    · have h0' : alookup (downloadMonth svc d.year d.month s).cache d = none := by
        rw [hcache]; exact h0
      have heq : findNearestAux svc (n + 1) d s
          = findNearestAux svc n d.pred (downloadMonth svc d.year d.month s) := by
        simp only [findNearestAux, h0, if_neg hdl, h0']
      rw [heq]
      apply ih d.pred _ _ hs'
      intro i hi
      rw [hcache]
      exact hc' i hi

theorem findNearestAux_spec (svc : FxService) :
    ∀ (fuel : ℕ) (d : Date) (s : FxState),
      (findNearestAux svc fuel d s).1 = FALLBACK_FX ∨
        ∃ i, i < fuel ∧
          alookup (findNearestAux svc fuel d s).2.cache (Date.pred^[i] d)
            = some (findNearestAux svc fuel d s).1 := by
  intro fuel
  induction fuel with
  | zero => intro d s; left; rfl
  | succ n ih =>
    intro d s
    cases hl : alookup s.cache d with
    | some t =>
      right
      have heq : findNearestAux svc (n + 1) d s = (t, s) := by
        simp only [findNearestAux, hl]
      refine ⟨0, Nat.succ_pos n, ?_⟩
      rw [heq, Function.iterate_zero_apply]
      exact hl
    | none =>
      by_cases hdl : (d.year, d.month) ∈ s.downloaded
      · have heq : findNearestAux svc (n + 1) d s = findNearestAux svc n d.pred s := by
          simp only [findNearestAux, hl, if_pos hdl]
        rw [heq]
        rcases ih d.pred s with h | ⟨i, hi, hmem⟩
        · exact Or.inl h
        · refine Or.inr ⟨i + 1, Nat.succ_lt_succ hi, ?_⟩
          rw [Function.iterate_succ_apply]
          exact hmem
      · cases hl' : alookup (downloadMonth svc d.year d.month s).cache d with
        | some t =>
          have heq : findNearestAux svc (n + 1) d s
              = (t, downloadMonth svc d.year d.month s) := by
            simp only [findNearestAux, hl, if_neg hdl, hl']
          right
          refine ⟨0, Nat.succ_pos n, ?_⟩
          rw [heq, Function.iterate_zero_apply]
          exact hl'
        | none =>
          have heq : findNearestAux svc (n + 1) d s
              = findNearestAux svc n d.pred (downloadMonth svc d.year d.month s) := by
            simp only [findNearestAux, hl, if_neg hdl, hl']
          rw [heq]
          rcases ih d.pred (downloadMonth svc d.year d.month s) with h | ⟨i, hi, hmem⟩
          · exact Or.inl h
          · refine Or.inr ⟨i + 1, Nat.succ_lt_succ hi, ?_⟩
            rw [Function.iterate_succ_apply]
            exact hmem

theorem alookup_dictSet {α β : Type} [DecidableEq α] (k : α) (v : β)
    (l : List (α × β)) (k' : α) :
    alookup (dictSet k v l) k' = if k' = k then some v else alookup l k' := by
  induction l with
  | nil => simp [dictSet, alookup]
  | cons p rest ih =>
    obtain ⟨a, b⟩ := p
    by_cases hka : k = a
    · subst hka
      by_cases hk' : k' = k <;> simp [dictSet, alookup, hk']
    · by_cases hk' : k' = a <;> by_cases hk'' : k' = k <;>
        simp_all [dictSet, alookup, hka]

theorem pairVal_bwAdd (m : BWMatrix) (w mk : ℕ) (v : ℚ) (w' mk' : ℕ) :
    pairVal (bwAdd m w mk v) w' mk'
      = if w' = w ∧ mk' = mk then some ((pairVal m w mk).getD 0 + v)
        else pairVal m w' mk' := by
  unfold pairVal bwAdd
  rw [alookup_dictSet]
  by_cases hw : w' = w
  · rw [if_pos hw]
    simp only [Option.bind_some, Option.some_bind]
    rw [alookup_dictSet]
    by_cases hmk : mk' = mk
    · rw [if_pos hmk, if_pos ⟨hw, hmk⟩]
      cases hmw : alookup m w <;> simp [hmw, alookup]
    · rw [if_neg hmk, if_neg (by tauto)]
      subst hw
      cases hmw : alookup m w' <;> simp [hmw, alookup]
  · rw [if_neg hw, if_neg (by tauto)]

theorem pairVal_ensure_week (m : BWMatrix) (w : ℕ) (w' mk' : ℕ) :
    pairVal (if alookup m w = none then dictSet w [] m else m) w' mk'
      = pairVal m w' mk' := by
  split
  · rename_i hnone
    unfold pairVal
    rw [alookup_dictSet]
    by_cases hw : w' = w
    · subst hw; rw [if_pos rfl, hnone]; simp [alookup]
    · rw [if_neg hw]
  · rfl

theorem pairVal_bwStep (m : BWMatrix) (r : BWRow) (w' mk' : ℕ) :
    pairVal (bwStep m r) w' mk'
      = match r.fecha, r.fecha_inicio with
        | some f, some fi =>
          if fi.year = 2026 then
            (if w' = strftimeW f + 1 ∧ mk' = fi.month then
              some ((pairVal m (strftimeW f + 1) fi.month).getD 0 + r.totalUsd)
            else pairVal m w' mk')
          else if fi.year = 2027 then
            (if w' = strftimeW f + 1 ∧ mk' = fi.month + 13 then
              some ((pairVal m (strftimeW f + 1) (fi.month + 13)).getD 0 + r.totalUsd)
            else pairVal m w' mk')
          else pairVal m w' mk'
        | _, _ => pairVal m w' mk' := by
  unfold bwStep
  cases hf : r.fecha with
  | none => rfl
  | some f =>
    cases hfi : r.fecha_inicio with
    | none => rfl
    | some fi =>
      simp only
      by_cases h26 : fi.year = 2026
      · rw [if_pos h26, if_pos h26, pairVal_bwAdd, pairVal_ensure_week, pairVal_ensure_week]
      · rw [if_neg h26, if_neg h26]
        by_cases h27 : fi.year = 2027
        · rw [if_pos h27, if_pos h27, pairVal_bwAdd, pairVal_ensure_week, pairVal_ensure_week]
        · rw [if_neg h27, if_neg h27, pairVal_ensure_week]

theorem cumDays_le (m : ℕ) : cumDays m ≤ 334 := by
  unfold cumDays
  rcases m with _|_|_|_|_|_|_|_|_|_|_|_|_|m <;> simp [List.getD]

theorem daysInMonth_le (y : ℤ) (m : ℕ) : daysInMonth y m ≤ 31 := by
  unfold daysInMonth
  split
  · split <;> norm_num
  · split <;> norm_num

theorem dayOfYear_le (d : Date) (h : d.Valid) : dayOfYear d ≤ 366 := by
  obtain ⟨_, _, _, hday⟩ := h
  unfold dayOfYear
  have h1 := cumDays_le d.month
  have h2 := daysInMonth_le d.year d.month
  have h3 : d.day ≤ 31 := le_trans hday h2
  split <;> omega

theorem strftimeW_le (d : Date) (h : d.Valid) : strftimeW d ≤ 53 := by
  unfold strftimeW
  have h1 := dayOfYear_le d h
  calc (dayOfYear d + 6 - weekdayMon0 d) / 7 ≤ 377 / 7 :=
        Nat.div_le_div_right (by omega)
    _ = 53 := by norm_num

theorem bwFold_bounds :
    ∀ (rows : List BWRow) (m : BWMatrix),
      (∀ r ∈ rows, (∀ f, r.fecha = some f → f.Valid) ∧
        (∀ f, r.fecha_inicio = some f → f.Valid)) →
      (∀ w mk, pairVal m w mk ≠ none → bwKeyBounds w mk) →
      ∀ w mk, pairVal (rows.foldl bwStep m) w mk ≠ none → bwKeyBounds w mk := by
  intro rows
  induction rows with
  | nil => intro m _ hinv; exact hinv
  | cons r rs ih =>
    intro m hval hinv
    rw [List.foldl_cons]
    apply ih _ (fun x hx => hval x (List.mem_cons_of_mem r hx))
    intro w mk hne
    rw [pairVal_bwStep] at hne
    cases hf : r.fecha with
    | none => rw [hf] at hne; exact hinv w mk hne
    | some f =>
      cases hfi : r.fecha_inicio with
      | none => rw [hf, hfi] at hne; exact hinv w mk hne
      | some fi =>
        rw [hf, hfi] at hne
        have hfv : f.Valid := (hval r (List.mem_cons_self r rs)).1 f hf
        have hfiv : fi.Valid := (hval r (List.mem_cons_self r rs)).2 fi hfi
        have hweek : strftimeW f + 1 ≤ 54 := by
          have := strftimeW_le f hfv
          omega
        obtain ⟨hm1, hm12, _, _⟩ := hfiv
        simp only at hne
        by_cases h26 : fi.year = 2026
        · rw [if_pos h26] at hne
          by_cases hpair : w = strftimeW f + 1 ∧ mk = fi.month
          · obtain ⟨hw, hmk⟩ := hpair
            unfold bwKeyBounds
            omega
          · rw [if_neg hpair] at hne
            exact hinv w mk hne
        · rw [if_neg h26] at hne
          by_cases h27 : fi.year = 2027
          · rw [if_pos h27] at hne
            by_cases hpair : w = strftimeW f + 1 ∧ mk = fi.month + 13
            · obtain ⟨hw, hmk⟩ := hpair
              unfold bwKeyBounds
              omega
            · rw [if_neg hpair] at hne
              exact hinv w mk hne
          · rw [if_neg h27] at hne
            exact hinv w mk hne

theorem bwStep_dropped (m : BWMatrix) (r : BWRow) (h : bwKept r = false)
    (w mk : ℕ) : pairVal (bwStep m r) w mk = pairVal m w mk := by
  rw [pairVal_bwStep]
  cases hf : r.fecha with
  | none => rfl
  | some f =>
    cases hfi : r.fecha_inicio with
    | none => rfl
    | some fi =>
      have hyear : ¬(fi.year = 2026) ∧ ¬(fi.year = 2027) := by
        unfold bwKept at h
        rw [hf, hfi] at h
        simpa using h
      simp only [hyear.1, hyear.2, if_false]

theorem bwStep_congr (m m' : BWMatrix) (r : BWRow)
    (h : ∀ w mk, pairVal m w mk = pairVal m' w mk) (w mk : ℕ) :
    pairVal (bwStep m r) w mk = pairVal (bwStep m' r) w mk := by
  rw [pairVal_bwStep, pairVal_bwStep]
  cases r.fecha with
  | none => exact h w mk
  | some f =>
    cases r.fecha_inicio with
    | none => exact h w mk
    | some fi => simp only [h]

theorem bwFold_filter :
    ∀ (rows : List BWRow) (m m' : BWMatrix),
      (∀ w mk, pairVal m w mk = pairVal m' w mk) →
      ∀ w mk, pairVal (rows.foldl bwStep m) w mk
        = pairVal ((rows.filter bwKept).foldl bwStep m') w mk := by
  intro rows
  induction rows with
  | nil => intro m m' h; exact h
  | cons r rs ih =>
    intro m m' h w mk
    rw [List.foldl_cons, List.filter_cons]
    by_cases hk : bwKept r = true
    · rw [if_pos hk, List.foldl_cons]
      exact ih (bwStep m r) (bwStep m' r) (bwStep_congr m m' r h) w mk
    · rw [if_neg hk]
      apply ih (bwStep m r) m' _ w mk
      intro w' mk'
      rw [bwStep_dropped m r (Bool.not_eq_true _ ▸ hk) w' mk']
      exact h w' mk'

-- ── Claim theorems ────────────────────────────────────────────────────────

/-- C1: for entity LLC, a reservation folio (5001) with total_cliente 1000
USD, two applied non-cancelled client-payment entries of 400 and 300 USD and
one non-cancelled 4ZP wallet entry of 200 USD yields AR settled 700, wallet
200, AR remainder 1000 - 700 - 200 = 100, remainder in USD 100, and the
folio is absent from the AR anomaly (flags) list since the remainder is
non-negative. -/
theorem c1_llc_ar_scenario :
    alookup (buildYaPagado ledgerC1 (fun e => e.fecha_proceso)) 5001 = some 700
    ∧ zpByFolio (build4zpRecords ledgerC1) 5001 = 200
    ∧ arRestante 1000 ledgerC1 5001 = 100
    ∧ round2 (arRestante 1000 ledgerC1 5001 * getFxUsd "USD" fxRun) = 100
    ∧ buildArFlags (buildYaPagado ledgerC1 (fun e => e.fecha_proceso))
        lookupC1 fxRun (build4zpRecords ledgerC1) = [] := by
  refine ⟨?_, ?_, ?_, ?_, ?_⟩ <;>
    norm_num +decide [buildArFlags, buildYaPagado, groupKeys, groupSum, alookup,
      isApplied, ledgerC1, pyStrip, build4zpRecords, zpByFolio, lookupC1, fxRun,
      getFxUsd, round2, roundTo, round_eq, sortFlags, insFlag, FALLBACK_FX,
      arRestante]

/-- C2: for every ledger and folio, the settled (ya pagado / ya cobrado)
total equals the sum of the folio's payment amounts with cancellation flag 0
and a non-sentinel application/process date, with no payment-method
exclusion; the direct-sale bucket equals the sum of applied non-cancelled
payments whose method code is in the entity's direct-sale set, which has one
code for SL and two for LLC. -/
theorem c2_settled_and_direct_sale (df : List PaymentRow)
    (dateCol : PaymentRow → String) (montoCol : PaymentRow → ℚ)
    (company : String) (folio : ℤ) :
    (alookup (buildYaPagado df dateCol) folio).getD 0
      = specSettledSum df dateCol folio
    ∧ (alookup (buildVentaDirecta df (VENTA_DIRECTA company) dateCol montoCol)
        folio).getD 0
      = specDirectSaleSum df (VENTA_DIRECTA company) dateCol montoCol folio
    ∧ (VENTA_DIRECTA "SL").length = 1 ∧ (VENTA_DIRECTA "LLC").length = 2 :=
  ⟨yaPagado_getD df dateCol folio,
   ventaDirecta_getD df (VENTA_DIRECTA company) dateCol montoCol folio,
   rfl, rfl⟩

/-- C7: a reservation (folio 7001) owed 1000 EUR to its supplier with 1200
EUR of applied non-cancelled supplier payments and no direct-sale or wallet
amounts yields AP remainder -200, remainder in USD strictly negative, and
the folio appears in the AP anomaly (flags) list. -/
theorem c7_ap_overpaid_scenario :
    alookup (buildYaPagado ledgerC7 (fun e => e.fecha_aplicacion)) 7001 = some 1200
    ∧ buildApFlags (buildYaPagado ledgerC7 (fun e => e.fecha_aplicacion))
        lookupC7 fxRun = [⟨7001, "EUR", 1000, 1200, -200, -232⟩]
    ∧ ∃ fl ∈ buildApFlags (buildYaPagado ledgerC7 (fun e => e.fecha_aplicacion))
        lookupC7 fxRun, fl.folio = 7001 ∧ fl.restante = -200 ∧ fl.restante_usd < 0 := by
  refine ⟨?_, ?_, ?_⟩ <;>
    norm_num +decide [buildApFlags, buildYaPagado, groupKeys, groupSum, alookup,
      isApplied, ledgerC7, pyStrip, lookupC7, fxRun, getFxUsd, round2, roundTo,
      round_eq, sortFlags, insFlag, FALLBACK_FX, List.filterMap_cons]

/-- C10: resolving a historical rate for `None` returns the static fallback
table, leaving the cache and attempted-months state untouched (no month
download, no cache lookup), and the function is total so nothing is raised. -/
theorem c10_none_date_returns_fallback (svc : FxService) (s : FxState) :
    getHistoricalFx svc none s = (FALLBACK_FX, s) := rfl

/-- C3: if the rate service fails for the month of the requested date (and
for the adjacent month the 7-day walk-back can reach), and no cached day
exists within the walk-back window, then resolving any date of that month
returns the static fallback table; the download error is absorbed inside
the month fetch, so the resolve operation still returns a value. -/
theorem c3_service_failure_returns_fallback (svc : FxService) (s : FxState)
    (d : Date)
    (hcache : ∀ i, i ≤ 7 → alookup s.cache (subDays d i) = none)
    (hsvc : ∀ i, i ≤ 7 → svc (subDays d i).year (subDays d i).month = none) :
    (getHistoricalFx svc (some d) s).1 = FALLBACK_FX := by
  have hcache' : ∀ i, i < 8 → alookup s.cache (Date.pred^[i] d) = none := by
    intro i hi
    simpa [subDays] using hcache i (by omega)
  have hsvc' : ∀ i, i < 8 →
      svc (Date.pred^[i] d).year (Date.pred^[i] d).month = none := by
    intro i hi
    simpa [subDays] using hsvc i (by omega)
  have hsvc0 : svc d.year d.month = none := by
    simpa using hsvc' 0 (by omega)
  by_cases hdl : (d.year, d.month) ∈ s.downloaded
  · simp only [getHistoricalFx, if_pos hdl]
    exact findNearestAux_fallback svc 8 d s hcache' hsvc'
  · simp only [getHistoricalFx, if_neg hdl]
    apply findNearestAux_fallback svc 8 d _ _ hsvc'
    intro i hi
    rw [downloadMonth_cache_of_fail svc d.year d.month s hsvc0]
    exact hcache' i hi

/-- C3 witness: with an empty cache and a service that fails every month,
resolving 2026-02-15 returns the fallback table. -/
theorem c3_witness :
    (getHistoricalFx svcDown (some ⟨2026, 2, 15⟩) emptyFxState).1 = FALLBACK_FX :=
  c3_service_failure_returns_fallback svcDown emptyFxState ⟨2026, 2, 15⟩
    (fun _ _ => rfl) (fun _ _ => rfl)

/-- C5: the walk-back resolution result is either the static fallback table
or a cached rate for one of the 8 days `d, d-1, ..., d-7` (never a day more
than 7 days before the requested date); and when none of those days has
cached data, the result is the fallback table. -/
theorem c5_backoff_bounded (svc : FxService) (d : Date) (s : FxState) :
    ((findNearestRate svc d s).1 = FALLBACK_FX ∨
      ∃ i, i ≤ 7 ∧ alookup (findNearestRate svc d s).2.cache (subDays d i)
        = some (findNearestRate svc d s).1)
    ∧ ((∀ i, i ≤ 7 →
          alookup (findNearestRate svc d s).2.cache (subDays d i) = none) →
        (findNearestRate svc d s).1 = FALLBACK_FX) := by
  have h := findNearestAux_spec svc 8 d s
  constructor
  · rcases h with h | ⟨i, hi, hm⟩
    · exact Or.inl h
    · exact Or.inr ⟨i, by omega, by simpa [subDays, findNearestRate] using hm⟩
  · intro hnone
    rcases h with h | ⟨i, hi, hm⟩
    · exact h
    · have hn := hnone i (by omega)
      rw [show subDays d i = Date.pred^[i] d from rfl] at hn
      rw [show findNearestRate svc d s = findNearestAux svc 8 d s from rfl] at hn
      rw [hn] at hm
      cases hm

/-- C5 witness: the bound instantiated at a concrete service, date and
state (failing service, empty cache: the result is the fallback table). -/
theorem c5_witness :
    ((findNearestRate svcDown ⟨2026, 3, 10⟩ emptyFxState).1 = FALLBACK_FX ∨
      ∃ i, i ≤ 7 ∧ alookup (findNearestRate svcDown ⟨2026, 3, 10⟩ emptyFxState).2.cache
        (subDays ⟨2026, 3, 10⟩ i)
        = some ((findNearestRate svcDown ⟨2026, 3, 10⟩ emptyFxState).1))
    ∧ ((∀ i, i ≤ 7 →
          alookup (findNearestRate svcDown ⟨2026, 3, 10⟩ emptyFxState).2.cache
            (subDays ⟨2026, 3, 10⟩ i) = none) →
        (findNearestRate svcDown ⟨2026, 3, 10⟩ emptyFxState).1 = FALLBACK_FX) :=
  c5_backoff_bounded svcDown ⟨2026, 3, 10⟩ emptyFxState

/-- C6: every reservation with client total 0 and non-zero profitability
gets profitability ratio 0 in its canonical DATA row (div-by-zero guard),
and contributes a `total_cliente=0 pero tiene rentabilidad` finding to the
validator output. -/
theorem c6_zero_total_ratio_and_finding (reservaDf : List ReservaRow)
    (rentTable : List (ℤ × ℚ)) (fx : FxTable) (company : String)
    (r : ReservaRow) (hr : r ∈ reservaDf) (h0 : r.total_cliente = 0)
    (hrent : rentOf rentTable r.folio ≠ 0) :
    (buildRow rentTable fx company r).Q = 0
    ∧ buildRow rentTable fx company r
        ∈ buildDataRows reservaDf rentTable fx company
    ∧ ∃ e ∈ detectErrors reservaDf rentTable,
        e.folio = r.folio
          ∧ e.error = ErrKind.totalCeroConRent (rentOf rentTable r.folio) := by
  refine ⟨?_, ?_, ?_⟩
  · simp [buildRow, h0, round6, roundTo]
  · exact List.mem_map.mpr ⟨r, hr, rfl⟩
  · refine ⟨⟨r.folio, ErrKind.totalCeroConRent (rentOf rentTable r.folio),
      pyStrip r.vendedor, r.fecha⟩, ?_, rfl, rfl⟩
    unfold detectErrors
    apply List.mem_flatMap.mpr
    refine ⟨r, hr, ?_⟩
    simp [rowErrors, h0, hrent]

/-- C6 witness: the concrete zero-total row with recorded profitability 150
satisfies the ratio guard and appears in the findings. -/
theorem c6_witness :
    (buildRow rentZeroTotal fxRun "SL" rowZeroTotal).Q = 0
    ∧ buildRow rentZeroTotal fxRun "SL" rowZeroTotal
        ∈ buildDataRows [rowZeroTotal] rentZeroTotal fxRun "SL"
    ∧ ∃ e ∈ detectErrors [rowZeroTotal] rentZeroTotal,
        e.folio = rowZeroTotal.folio
          ∧ e.error = ErrKind.totalCeroConRent (rentOf rentZeroTotal rowZeroTotal.folio) :=
  c6_zero_total_ratio_and_finding [rowZeroTotal] rentZeroTotal fxRun "SL"
    rowZeroTotal (List.mem_singleton_self _) rfl (by decide)

theorem specSettledSum_cons (e : PaymentRow) (l : List PaymentRow)
    (dateCol : PaymentRow → String) (folio : ℤ) :
    specSettledSum (e :: l) dateCol folio
      = (if e.cancelado = 0 ∧ pyStrip (dateCol e) ≠ "0000-00-00" ∧ e.reserva = folio
          then e.monto else 0) + specSettledSum l dateCol folio := by
  unfold specSettledSum
  rw [List.filter_cons]
  by_cases h : e.cancelado = 0 ∧ pyStrip (dateCol e) ≠ "0000-00-00" ∧ e.reserva = folio
  · simp [h]
  · simp [h]

theorem zpByFolio_4zp_cons (e : PaymentRow) (l : List PaymentRow) (folio : ℤ)
    (hc : e.cancelado = 0) (hf : e.forma_pago = "4ZP") (hr : e.reserva = folio) :
    zpByFolio (build4zpRecords (e :: l)) folio
      = e.monto + zpByFolio (build4zpRecords l) folio := by
  unfold build4zpRecords zpByFolio
  rw [List.filter_cons]
  simp [hc, hf, hr]

/-- C9: the LLC wallet records are selected only by cancellation flag 0 and
method code 4ZP with no date filter: prepending a non-cancelled 4ZP entry
with a real process date to the client ledger lowers the folio's AR
remainder by twice its amount (once through the settled sum, once through
the wallet sum), while a 4ZP entry carrying the unapplied sentinel date
still lowers it by its amount. -/
theorem c9_wallet_double_count (ledger : List PaymentRow) (total : ℚ)
    (e : PaymentRow) (folio : ℤ) (hres : e.reserva = folio)
    (hcanc : e.cancelado = 0) (hforma : e.forma_pago = "4ZP") :
    (pyStrip e.fecha_proceso ≠ "0000-00-00" →
      arRestante total (e :: ledger) folio
        = arRestante total ledger folio - 2 * e.monto)
    ∧ (pyStrip e.fecha_proceso = "0000-00-00" →
      arRestante total (e :: ledger) folio
        = arRestante total ledger folio - e.monto) := by
  constructor <;> intro hdate <;>
    unfold arRestante <;>
      rw [yaPagado_getD, yaPagado_getD, specSettledSum_cons,
        zpByFolio_4zp_cons e ledger folio hcanc hforma hres]
  · rw [if_pos ⟨hcanc, hdate, hres⟩]
    ring
  · rw [if_neg (fun hcon => hcon.2.1 hdate)]
    ring

/-- C9 witness: on the concrete scenario ledger, an applied 4ZP payment of
50 lowers the remainder by 100 and an unapplied one of 80 lowers it by 80. -/
theorem c9_witness :
    arRestante 1000 (zpApplied :: ledgerC1) 5001
      = arRestante 1000 ledgerC1 5001 - 2 * 50
    ∧ arRestante 1000 (zpUnapplied :: ledgerC1) 5001
      = arRestante 1000 ledgerC1 5001 - 80 :=
  ⟨(c9_wallet_double_count ledgerC1 1000 zpApplied 5001 rfl rfl rfl).1 (by decide),
   (c9_wallet_double_count ledgerC1 1000 zpUnapplied 5001 rfl rfl rfl).2 (by decide)⟩

theorem parseSingleDay_eq_map (resp : List (String × ℚ)) :
    parseSingleDay resp = fxCurrencies.map (fun cur => (cur, parseEntry resp cur)) := by
  simp only [parseSingleDay, parseEntry]
  apply List.map_congr_left
  intro cur _
  by_cases hlk : (if cur = "GPB" then "GBP" else cur) = "EUR"
  · simp [hlk]
  · cases halk : alookup resp (if cur = "GPB" then "GBP" else cur) <;>
      simp [hlk, halk]

/-- C4 counterexample: a one-day response missing CHF still yields a table
whose CHF entry is the static fallback (1.07, 1.25); with the stored
EUR→USD rate 1.16 the product relation fails by 0.0088, far beyond any
6-decimal rounding tolerance, so the claim does not hold for every currency
present in the table. -/
theorem c4_counterexample :
    alookup (parseSingleDay respMissingChf) "CHF" = some ⟨1.07, 1.25⟩
    ∧ alookup (parseSingleDay respMissingChf) "EUR" = some ⟨1, 1.16⟩
    ∧ (1 : ℚ) / 200 < |(1.25 : ℚ) - 1.07 * 1.16| := by
  refine ⟨rfl, ?_, ?_⟩
  · rw [parseSingleDay_eq_map, alookup_map_key, if_pos (by decide)]
    have h1 : round6 (1.16 : ℚ) = 1.16 := by norm_num [round6, roundTo, round_eq]
    simp +decide [parseEntry, respMissingChf, alookup, h1]
  · have h2 : (1.25 : ℚ) - 1.07 * 1.16 = 0.0088 := by norm_num
    rw [h2, abs_of_pos (by norm_num)]
    norm_num

/-- C4 (amended): the EUR entry still has EUR rate exactly 1.0 and USD rate
equal to the rounded service EUR→USD rate; and for every currency whose
alias-resolved code is present in the response (with a non-zero rate, as
the service returns), the stored EUR and USD rates are the 6-decimal
roundings of a common exact value `t` and of `t` times the exact EUR→USD
rate — the multiplicative relation up to the rounding applied to each
stored rate.  Currencies absent from the response receive static fallback
entries, which are exempt. -/
theorem c4_amended_rounding_relation (resp : List (String × ℚ)) (c : String)
    (hc : c ∈ fxCurrencies) (X : ℚ)
    (hX : alookup resp (if c = "GPB" then "GBP" else c) = some X)
    (hX0 : X ≠ 0) :
    alookup (parseSingleDay resp) "EUR"
      = some ⟨1, round6 ((alookup resp "USD").getD 1.16)⟩
    ∧ ∃ t : ℚ, alookup (parseSingleDay resp) c
        = some ⟨round6 t, round6 (t * ((alookup resp "USD").getD 1.16))⟩ := by
  have hne := hX0
  have hl : ∀ cur, cur ∈ fxCurrencies →
      alookup (parseSingleDay resp) cur = some (parseEntry resp cur) := by
    intro cur hcur
    rw [parseSingleDay_eq_map, alookup_map_key, if_pos hcur]
  have h1 : round6 (1 : ℚ) = 1 := by norm_num [round6, roundTo, round_eq]
  constructor
  · rw [hl "EUR" (by decide)]
    simp [parseEntry]
  · rw [hl c hc]
    fin_cases hc
    · exact ⟨1, by simp [parseEntry, h1]⟩
    · simp +decide only [if_true, if_false] at hX
      exact ⟨1 / X, by simp +decide [parseEntry, hX]⟩
    · simp +decide only [if_true, if_false] at hX
      exact ⟨1 / X, by simp +decide [parseEntry, hX]⟩
    · simp +decide only [if_true, if_false] at hX
      exact ⟨1 / X, by simp +decide [parseEntry, hX]⟩
    · simp +decide only [if_true, if_false] at hX
      exact ⟨1 / X, by simp +decide [parseEntry, hX]⟩
    · simp +decide only [if_true, if_false] at hX
      exact ⟨1 / X, by simp +decide [parseEntry, hX]⟩
    · simp +decide only [if_true, if_false] at hX
      exact ⟨1 / X, by simp +decide [parseEntry, hX]⟩

/-- C4 witness: the amended relation instantiated at a response carrying
USD 1.16 and GBP 0.87, for the currency GBP. -/
theorem c4_witness :
    alookup (parseSingleDay respUsdGbp) "EUR"
      = some ⟨1, round6 ((alookup respUsdGbp "USD").getD 1.16)⟩
    ∧ ∃ t : ℚ, alookup (parseSingleDay respUsdGbp) "GBP"
        = some ⟨round6 t, round6 (t * ((alookup respUsdGbp "USD").getD 1.16))⟩ :=
  c4_amended_rounding_relation respUsdGbp "GBP" (by decide) 0.87 rfl (by norm_num)

/-- C8 counterexample: a row sold on the valid date 2024-12-30 (`%W` week
53, so sale-week key 53 + 1 = 54) with a May-2026 departure produces the
matrix key pair (54, 5), so the sale-week key is not always within 1..53 as
claimed. -/
theorem c8_counterexample :
    (⟨2024, 12, 30⟩ : Date).Valid
    ∧ strftimeW ⟨2024, 12, 30⟩ + 1 = 54
    ∧ pairVal (buildBookingMatrix [rowWeek54]) 54 5 = some 100
    ∧ ¬(54 ≤ 53) := by
  have hw : strftimeW ⟨2024, 12, 30⟩ = 53 := by decide
  refine ⟨by decide, by decide, ?_, by decide⟩
  simp [buildBookingMatrix, bwStep, rowWeek54, hw, bwAdd, dictSet, alookup, pairVal]

/-- C8 (amended): for every input row list whose dates are valid calendar
dates, every (week, month-key) pair present in the booking matrix has its
sale-week key in 1..54 (54 occurs for sale dates in the final Monday-start
week of a year beginning on Monday, or a leap year beginning on Sunday) and
its month key in 1..12 (departure year 2026) or 14..25 (departure year
2027); and rows missing a date or departing in any other year contribute no
(week, month-key) entry: the matrix values coincide with those of the list
filtered to 2026/2027 departures. -/
theorem c8_amended_matrix_keys (rows : List BWRow)
    (hval : ∀ r ∈ rows, (∀ f, r.fecha = some f → f.Valid) ∧
      (∀ f, r.fecha_inicio = some f → f.Valid)) :
    (∀ w mk, pairVal (buildBookingMatrix rows) w mk ≠ none → bwKeyBounds w mk)
    ∧ (∀ w mk, pairVal (buildBookingMatrix rows) w mk
        = pairVal (buildBookingMatrix (rows.filter bwKept)) w mk) := by
  constructor
  · exact bwFold_bounds rows [] hval (fun w mk h => absurd rfl h)
  · intro w mk
    exact bwFold_filter rows [] [] (fun _ _ => rfl) w mk

/-- C8 witness: the amended bounds instantiated at the concrete week-54
row. -/
theorem c8_witness :
    (∀ w mk, pairVal (buildBookingMatrix [rowWeek54]) w mk ≠ none → bwKeyBounds w mk)
    ∧ (∀ w mk, pairVal (buildBookingMatrix [rowWeek54]) w mk
        = pairVal (buildBookingMatrix ([rowWeek54].filter bwKept)) w mk) :=
  c8_amended_matrix_keys [rowWeek54] (by
    intro r hr
    rw [List.mem_singleton] at hr
    subst hr
    exact ⟨fun f hf => by cases hf; decide, fun f hf => by cases hf; decide⟩)
